import Mathlib

/-!
Verification development for the Hour-Tracker repository.

The repository has three source units:
* `WorkLogController.cls` — Apex backend: `saveHours` parses the selected
  Sunday date, shifts it forward one day, rejects duplicates, coerces the
  seven hour fields to decimals and inserts one `HourTracker__c` record.
* `HourTrackerController.cls` — Apex backend: `getAllHours` returns all
  `HourTracker__c` records ordered by `Sunday_Date__c`.
* `hourTracker.js` (LWC) — client form: date-change validation, per-day
  input handling, submission, toast notifications and a publish on the
  `HourTrackerMessageChannel`.
* `hourTrackerDisplay` (LWC) — client table: wire-based query, message
  subscription with a truthiness check on `message.refresh`, and a
  `refreshApex` refetch.

Strings are modelled as lists of characters.  Apex `Decimal` values are
modelled exactly as an unscaled integer together with a decimal scale.
Calendar dates are modelled structurally (year, month, day) with the
Gregorian leap rule; `dayNumber` maps a date to its absolute day index so
that "shifted forward by exactly one day" is a provable statement rather
than a definition.  Date-only strings are parsed at UTC, so the weekday
returned by the client's `getDay()` and the server's date arithmetic agree
on one calendar.
-/

/-- Strings of the modelled programs, as plain character lists so that all
parsing functions compute by structural recursion. -/
abbrev Str := List Char

/-- Split a character list on a separator character; mirrors splitting a
date string on the dash or a decimal string on the dot. -/
def splitOnChar (sep : Char) : Str → List Str
  | [] => [[]]
  | c :: cs =>
    let rest := splitOnChar sep cs
    if c = sep then [] :: rest
    else
      match rest with
      | [] => [[c]]
      | r :: rs => (c :: r) :: rs

/-- Parse a non-empty all-digit character list as a natural number. -/
def digits? : Str → Option Nat
  | [] => none
  | cs =>
    if cs.all Char.isDigit then
      some (cs.foldl (fun acc c => acc * 10 + (c.toNat - 48)) 0)
    else none

/-- A calendar date as the platform represents it: year, month (1–12) and
day of month. -/
structure CDate where
  year : Nat
  month : Nat
  day : Nat
deriving DecidableEq, Repr

/-- Gregorian leap-year rule. -/
def isLeap (y : Nat) : Bool :=
  (y % 4 == 0 && y % 100 != 0) || (y % 400 == 0)

/-- Number of days in a month of a given year. -/
def daysInMonth (y m : Nat) : Nat :=
  if m = 2 then (if isLeap y then 29 else 28)
  else if m = 4 ∨ m = 6 ∨ m = 9 ∨ m = 11 then 30
  else 31

/-- `Date.valueOf` on a `yyyy-MM-dd` string (also how the client's
`new Date(value)` reads a date-only input value, at UTC): three dash
separated digit groups forming a valid Gregorian date with positive year;
anything else (empty string, garbage, out-of-range day) fails. -/
def parseDate (s : Str) : Option CDate :=
  match splitOnChar '-' s with
  | [ys, ms, ds] =>
    match digits? ys, digits? ms, digits? ds with
    | some y, some m, some d =>
      if 1 ≤ y ∧ 1 ≤ m ∧ m ≤ 12 ∧ 1 ≤ d ∧ d ≤ daysInMonth y m then
        some ⟨y, m, d⟩
      else none
    | _, _, _ => none
  | _ => none

/-- Apex `Date.addDays(1)`: structural successor of a calendar date, with
month and year rollover. -/
def addDays1 (dt : CDate) : CDate :=
  if dt.day < daysInMonth dt.year dt.month then ⟨dt.year, dt.month, dt.day + 1⟩
  else if dt.month < 12 then ⟨dt.year, dt.month + 1, 1⟩
  else ⟨dt.year + 1, 1, 1⟩

/-- Days contributed by all whole years before year `y` (years count from
1; closed form of the Gregorian leap count). -/
def daysBeforeYear (y : Nat) : Nat :=
  365 * (y - 1) + (y - 1) / 4 - (y - 1) / 100 + (y - 1) / 400

/-- Days contributed by all whole months before month `m` in year `y`. -/
def daysBeforeMonth (y : Nat) : Nat → Nat
  | 0 => 0
  | m + 1 => daysBeforeMonth y m + (if m = 0 then 0 else daysInMonth y m)

/-- Absolute day index of a calendar date.  Day 1 is 0001-01-01, which is
a Monday in the proleptic Gregorian calendar, so `dayNumber dt % 7` is the
JavaScript weekday (0 = Sunday, 6 = Saturday). -/
def dayNumber (dt : CDate) : Nat :=
  daysBeforeYear dt.year + daysBeforeMonth dt.year dt.month + dt.day

/-- The client's `new Date(value).getDay()`: the weekday of a parsed date
string, `none` when the string is not a valid date (the `NaN` case). -/
def jsGetDay (s : Str) : Option Nat :=
  (parseDate s).map (fun dt => dayNumber dt % 7)

/-- An Apex `Decimal`, kept exact: `mant / 10 ^ scale`. -/
structure Dec where
  mant : Int
  scale : Nat
deriving DecidableEq, Repr

/-- `Decimal.valueOf(String.valueOf(v))`: optional sign, a non-empty digit
group, and an optional non-empty fraction group.  Anything else (for
example `"abc"`) fails.  Note a leading minus sign is accepted: the source
performs no non-negativity check. -/
def parseDecimal (s : Str) : Option Dec :=
  let signSplit : Bool × Str :=
    match s with
    | '-' :: cs => (true, cs)
    | '+' :: cs => (false, cs)
    | cs => (false, cs)
  let neg := signSplit.1
  match splitOnChar '.' signSplit.2 with
  | [ip] =>
    match digits? ip with
    | some n => some ⟨if neg then -(n : Int) else (n : Int), 0⟩
    | none => none
  | [ip, fp] =>
    match digits? ip, digits? fp with
    | some n, some f =>
      let m : Int := ((n * 10 ^ fp.length + f : Nat) : Int)
      some ⟨if neg then -m else m, fp.length⟩
    | _, _ => none
  | _ => none

/-- The persisted `HourTracker__c` record. -/
structure HourTracker__c where
  Id : Nat
  Sunday_Date__c : CDate
  Sunday_Hours__c : Dec
  Monday_Hours__c : Dec
  Tuesday_Hours__c : Dec
  Wednesday_Hours__c : Dec
  Thursday_Hours__c : Dec
  Friday_Hours__c : Dec
  Saturday_Hours__c : Dec
deriving DecidableEq, Repr

/-- The `hourTrackerData` map the client sends to `saveHours`: the raw
date string and the seven raw hour strings (a numeric zero serializes to
the string `"0"` at the `String.valueOf` boundary). -/
structure HourData where
  sundayDate : Str
  sundayHours : Str
  mondayHours : Str
  tuesdayHours : Str
  wednesdayHours : Str
  thursdayHours : Str
  fridayHours : Str
  saturdayHours : Str
deriving DecidableEq, Repr

/-- The distinguishable failure outcomes of `saveHours`, one per throw
site: the explicit duplicate-date `AuraHandledException`, a rethrown
`Date.valueOf` failure, and a rethrown `Decimal.valueOf` failure (whose
message carries the offending raw value, not the day name). -/
inductive SaveError where
  | duplicateWeek
  | invalidDate (raw : Str)
  | invalidDecimal (raw : Str)
deriving DecidableEq, Repr

/-- Outcome tag of one `saveHours` call. -/
inductive SaveResult where
  | ok
  | err (e : SaveError)
deriving DecidableEq, Repr

/-- A `saveHours` call returns to the client either success or an error,
and leaves the record store in some state. -/
structure SaveOutcome where
  store : List HourTracker__c
  result : SaveResult
deriving DecidableEq, Repr

/-- The seven coerced hour values of one submission. -/
structure Hours7 where
  sun : Dec
  mon : Dec
  tue : Dec
  wed : Dec
  thu : Dec
  fri : Dec
  sat : Dec
deriving DecidableEq, Repr

/-- The seven `Decimal.valueOf(String.valueOf(...))` coercions of
`WorkLogController.saveHours`, in source statement order; the first
failure aborts the whole sequence. -/
def coerceHours (d : HourData) : Except SaveError Hours7 :=
  match parseDecimal d.sundayHours with
  | none => .error (.invalidDecimal d.sundayHours)
  | some sun =>
  match parseDecimal d.mondayHours with
  | none => .error (.invalidDecimal d.mondayHours)
  | some mon =>
  match parseDecimal d.tuesdayHours with
  | none => .error (.invalidDecimal d.tuesdayHours)
  | some tue =>
  match parseDecimal d.wednesdayHours with
  | none => .error (.invalidDecimal d.wednesdayHours)
  | some wed =>
  match parseDecimal d.thursdayHours with
  | none => .error (.invalidDecimal d.thursdayHours)
  | some thu =>
  match parseDecimal d.fridayHours with
  | none => .error (.invalidDecimal d.fridayHours)
  | some fri =>
  match parseDecimal d.saturdayHours with
  | none => .error (.invalidDecimal d.saturdayHours)
  | some sat => .ok ⟨sun, mon, tue, wed, thu, fri, sat⟩

/-- `WorkLogController.saveHours`: parse the Sunday date and shift it one
day forward, query for an existing record with the same date and throw the
duplicate error if one exists, otherwise coerce the seven hour fields and
insert a new record.  Every throw path leaves the store untouched because
the `insert` statement is the last one. -/
def saveHours (store : List HourTracker__c) (hourTrackerData : HourData) :
    SaveOutcome :=
  match parseDate hourTrackerData.sundayDate with
  | none => ⟨store, .err (.invalidDate hourTrackerData.sundayDate)⟩
  | some parsed =>
    let sundayDate := addDays1 parsed
    let existingRecords := store.filter (fun r => r.Sunday_Date__c = sundayDate)
    if existingRecords.isEmpty then
      match coerceHours hourTrackerData with
      | .error e => ⟨store, .err e⟩
      | .ok h =>
        ⟨store ++ [{ Id := store.length
                     Sunday_Date__c := sundayDate
                     Sunday_Hours__c := h.sun
                     Monday_Hours__c := h.mon
                     Tuesday_Hours__c := h.tue
                     Wednesday_Hours__c := h.wed
                     Thursday_Hours__c := h.thu
                     Friday_Hours__c := h.fri
                     Saturday_Hours__c := h.sat }], .ok⟩
    else ⟨store, .err .duplicateWeek⟩

/-- The `ORDER BY Sunday_Date__c` comparison of `getAllHours`. -/
def recLe (a b : HourTracker__c) : Prop :=
  dayNumber a.Sunday_Date__c ≤ dayNumber b.Sunday_Date__c

instance : DecidableRel recLe := fun a b =>
  inferInstanceAs (Decidable (dayNumber a.Sunday_Date__c ≤ dayNumber b.Sunday_Date__c))

instance : IsTotal HourTracker__c recLe :=
  ⟨fun a b => Nat.le_total (dayNumber a.Sunday_Date__c) (dayNumber b.Sunday_Date__c)⟩

instance : IsTrans HourTracker__c recLe :=
  ⟨fun _ _ _ hab hbc => Nat.le_trans hab hbc⟩

/-- `HourTrackerController.getAllHours`: all stored records, ordered
ascending by `Sunday_Date__c`. -/
def getAllHours (store : List HourTracker__c) : List HourTracker__c :=
  store.insertionSort recLe

/-- A JavaScript value, as far as the message payloads of this system can
observe one (numbers restricted to integers, which covers every payload the
system constructs). -/
inductive JSVal where
  | undefined
  | null
  | bool (b : Bool)
  | num (n : Int)
  | str (s : Str)
deriving DecidableEq, Repr

/-- A JavaScript object as a key/value list; message payloads. -/
abbrev JSObj := List (Str × JSVal)

/-- JavaScript truthiness of a value, as tested by `if (message.refresh)`. -/
def truthy : JSVal → Bool
  | .undefined => false
  | .null => false
  | .bool b => b
  | .num n => n != 0
  | .str s => !s.isEmpty

/-- Property read `obj.key`: the stored value, or `undefined` when the key
is absent. -/
def getField (o : JSObj) (k : Str) : JSVal :=
  match o.find? (fun p => p.1 == k) with
  | some p => p.2
  | none => .undefined

/-- The reactive fields of the `hourTracker` form component. -/
structure ClientState where
  sundayDate : Str
  showTable : Bool
  sundayHours : Str
  mondayHours : Str
  tuesdayHours : Str
  wednesdayHours : Str
  thursdayHours : Str
  fridayHours : Str
  saturdayHours : Str
deriving DecidableEq, Repr

/-- Observable side effects of the form component: the Apex call, a toast
dispatch, and a publish on the message channel. -/
inductive Effect where
  | persistCall (data : HourData)
  | toast (title message variant : Str)
  | publishMsg (payload : JSObj)
deriving DecidableEq, Repr

/-- The `hourData` object built at the top of `handleSubmit`. -/
def buildHourData (st : ClientState) : HourData :=
  { sundayDate := st.sundayDate
    sundayHours := st.sundayHours
    mondayHours := st.mondayHours
    tuesdayHours := st.tuesdayHours
    wednesdayHours := st.wednesdayHours
    thursdayHours := st.thursdayHours
    fridayHours := st.fridayHours
    saturdayHours := st.saturdayHours }

/-- `resetForm`: clear the date and zero the seven hour fields (the null
assigned to the date is modelled as the empty string). -/
def resetForm (st : ClientState) : ClientState :=
  { st with
    sundayDate := []
    sundayHours := "0".data
    mondayHours := "0".data
    tuesdayHours := "0".data
    wednesdayHours := "0".data
    thursdayHours := "0".data
    fridayHours := "0".data
    saturdayHours := "0".data }

/-- `handleDateChange`: compute the weekday of the picked value; unless it
is 6 hide the table, toast an error and clear the field, otherwise store
the value and show the table.  No network effect exists on either path. -/
def handleDateChange (st : ClientState) (value : Str) :
    ClientState × List Effect :=
  let dayOfWeek := jsGetDay value
  if dayOfWeek ≠ some 6 then
    ({ st with showTable := false, sundayDate := [] },
     [.toast "Invalid Date".data "Please select a Sunday date.".data "error".data])
  else
    ({ st with sundayDate := value, showTable := true }, [])

/-- `handleInputChange`: route the entered value to the day named by the
input's `data-id`; an unrecognized day id falls through every branch and
changes nothing. -/
def handleInputChange (st : ClientState) (day value : Str) : ClientState :=
  if day = "sunday".data then { st with sundayHours := value }
  else if day = "monday".data then { st with mondayHours := value }
  else if day = "tuesday".data then { st with tuesdayHours := value }
  else if day = "wednesday".data then { st with wednesdayHours := value }
  else if day = "thursday".data then { st with thursdayHours := value }
  else if day = "friday".data then { st with fridayHours := value }
  else if day = "saturday".data then { st with saturdayHours := value }
  else st

/-- `handleSubmit`: build the hour data, call the Apex save, and branch on
the settled promise.  On success: success toast, publish `{refresh: true}`,
reset the form, hide the table.  On failure (any rejection, including
server-detected errors and transport errors): error toast only.  Effects
are listed in program order, the Apex call first. -/
def handleSubmit (st : ClientState) (resp : Except Str Unit) :
    ClientState × List Effect :=
  let hourData := buildHourData st
  match resp with
  | .ok _ =>
    ({ resetForm st with showTable := false },
     [.persistCall hourData,
      .toast "Success".data "Hours saved successfully!".data "success".data,
      .publishMsg [("refresh".data, .bool true)]])
  | .error m =>
    (st,
     [.persistCall hourData,
      .toast "Error".data ("Error logging hours: ".data ++ m) "error".data])

/-- A row of the display table, as mapped in `wiredHours`. -/
structure Row where
  id : Nat
  sundayDate : CDate
  sundayHours : Dec
  mondayHours : Dec
  tuesdayHours : Dec
  wednesdayHours : Dec
  thursdayHours : Dec
  fridayHours : Dec
  saturdayHours : Dec
deriving DecidableEq, Repr

/-- The record-to-row mapping of `wiredHours`. -/
def toRow (record : HourTracker__c) : Row :=
  { id := record.Id
    sundayDate := record.Sunday_Date__c
    sundayHours := record.Sunday_Hours__c
    mondayHours := record.Monday_Hours__c
    tuesdayHours := record.Tuesday_Hours__c
    wednesdayHours := record.Wednesday_Hours__c
    thursdayHours := record.Thursday_Hours__c
    fridayHours := record.Friday_Hours__c
    saturdayHours := record.Saturday_Hours__c }

/-- The settled shape of the wire result: `data` or `error`. -/
inductive QueryResult where
  | data (recs : List HourTracker__c)
  | error (msg : Str)
deriving DecidableEq, Repr

/-- The reactive fields of the `hourTrackerDisplay` component. -/
structure DisplayState where
  hoursData : List Row
  wiredHoursResult : Option QueryResult
deriving DecidableEq, Repr

/-- Observable side effects of the display component: the diagnostic
console log and a `refreshApex` refetch. -/
inductive DEffect where
  | consoleError (msg : Str)
  | refetch
deriving DecidableEq, Repr

/-- `wiredHours`: store the wire result, and on data map it into rows; on
error only log, leaving `hoursData` at its previous value and issuing no
retry. -/
def wiredHours (st : DisplayState) (result : QueryResult) :
    DisplayState × List DEffect :=
  let st1 := { st with wiredHoursResult := some result }
  match result with
  | .data recs => ({ st1 with hoursData := recs.map toRow }, [])
  | .error m => (st1, [.consoleError m])

/-- `refreshData`: `refreshApex` re-runs the wire against the current
store, so the wire handler fires again with fresh data. -/
def refreshData (st : DisplayState) (store : List HourTracker__c) :
    DisplayState × List DEffect :=
  let step := wiredHours st (.data (getAllHours store))
  (step.1, .refetch :: step.2)

/-- `handleMessage`: `if (message.refresh)` — a truthiness test on the
`refresh` property decides whether to refetch. -/
def handleMessage (st : DisplayState) (store : List HourTracker__c)
    (message : JSObj) : DisplayState × List DEffect :=
  if truthy (getField message "refresh".data) then refreshData st store
  else (st, [])

/-- The boolean leap test, unfolded to arithmetic. -/
theorem isLeap_eq_true_iff (y : Nat) :
    isLeap y = true ↔ ((y % 4 = 0 ∧ ¬ y % 100 = 0) ∨ y % 400 = 0) := by
  simp [isLeap]

set_option maxHeartbeats 1600000 in
/-- One more whole year contributes a leap-aware year length. -/
theorem daysBeforeYear_succ (y : Nat) (hy : 1 ≤ y) :
    daysBeforeYear (y + 1) = daysBeforeYear y + (if isLeap y then 366 else 365) := by
  by_cases hL : isLeap y = true
  · rw [if_pos hL]
    rw [isLeap_eq_true_iff] at hL
    unfold daysBeforeYear
    omega
  · rw [if_neg hL]
    rw [isLeap_eq_true_iff] at hL
    unfold daysBeforeYear
    omega

/-- One more whole month contributes its month length. -/
theorem daysBeforeMonth_succ (y m : Nat) (hm : 1 ≤ m) :
    daysBeforeMonth y (m + 1) = daysBeforeMonth y m + daysInMonth y m := by
  have hm0 : m ≠ 0 := by omega
  simp [daysBeforeMonth, hm0]

/-- The eleven months before December plus December's 31 days make a full
year. -/
theorem daysBeforeMonth_twelve (y : Nat) :
    daysBeforeMonth y 12 + 31 = (if isLeap y then 366 else 365) := by
  by_cases hL : isLeap y = true <;>
    simp [daysBeforeMonth, daysInMonth, hL]

/-- `addDays1` advances the absolute day index by exactly one on every
valid calendar date, across month and year boundaries. -/
theorem dayNumber_addDays1 (dt : CDate) (hy : 1 ≤ dt.year) (hm1 : 1 ≤ dt.month)
    (hm2 : dt.month ≤ 12) (hd1 : 1 ≤ dt.day)
    (hd2 : dt.day ≤ daysInMonth dt.year dt.month) :
    dayNumber (addDays1 dt) = dayNumber dt + 1 := by
  obtain ⟨y, m, d⟩ := dt
  dsimp only at hy hm1 hm2 hd1 hd2
  simp only [addDays1]
  split_ifs with h1 h2
  · simp only [dayNumber]
    omega
  · have hd : d = daysInMonth y m := by omega
    have hstep := daysBeforeMonth_succ y m hm1
    simp only [dayNumber, hstep]
    omega
  · have hm12 : m = 12 := by omega
    subst hm12
    have hd31 : d = 31 := by
      have h31 : daysInMonth y 12 = 31 := by norm_num [daysInMonth]
      omega
    subst hd31
    have h12 := daysBeforeMonth_twelve y
    have hyy := daysBeforeYear_succ y hy
    have h01 : daysBeforeMonth (y + 1) 1 = 0 := by simp [daysBeforeMonth]
    simp only [dayNumber]
    omega

/-- Every date produced by `parseDate` is a valid calendar date. -/
theorem parseDate_valid {s : Str} {dt : CDate} (h : parseDate s = some dt) :
    1 ≤ dt.year ∧ 1 ≤ dt.month ∧ dt.month ≤ 12 ∧ 1 ≤ dt.day ∧
      dt.day ≤ daysInMonth dt.year dt.month := by
  unfold parseDate at h
  split at h
  · split at h
    · split at h
      · cases h
        assumption
      · cases h
    · cases h
  · cases h

/-- Inversion of a successful `saveHours` call: the date string parsed,
there was no duplicate, the coercions succeeded, and exactly one record
whose `Sunday_Date__c` is the parsed date shifted by one day was appended
to the store. -/
theorem saveHours_ok_inv {store store1 : List HourTracker__c} {data : HourData}
    (h : saveHours store data = ⟨store1, .ok⟩) :
    ∃ parsed rec,
      parseDate data.sundayDate = some parsed ∧
      rec.Sunday_Date__c = addDays1 parsed ∧
      store1 = store ++ [rec] := by
  unfold saveHours at h
  rcases hp : parseDate data.sundayDate with _ | parsed
  · rw [hp] at h
    cases h
  · rw [hp] at h
    dsimp only at h
    rcases hq : (store.filter
        (fun r => r.Sunday_Date__c = addDays1 parsed)).isEmpty with _ | _
    · rw [hq] at h
      simp only [Bool.false_eq_true, if_false] at h
      cases h
    · rw [hq] at h
      simp only [if_true] at h
      rcases hc : coerceHours data with e | h7
      · rw [hc] at h
        cases h
      · rw [hc] at h
        injection h with hstore hres
        exact ⟨parsed, _, rfl, rfl, hstore.symm⟩

/-- A demonstration draft: the Saturday 2024-01-06 selected, eight hours
each day. -/
def data1demo : HourData :=
  { sundayDate := "2024-01-06".data
    sundayHours := "8".data
    mondayHours := "8".data
    tuesdayHours := "8".data
    wednesdayHours := "8".data
    thursdayHours := "8".data
    fridayHours := "8".data
    saturdayHours := "4".data }

/-- A second draft for the same selected date with different hours. -/
def data2demo : HourData :=
  { data1demo with sundayHours := "2".data, mondayHours := "2".data }

/-- The store after submitting `data1demo` into an empty store. -/
def store1demo : List HourTracker__c := (saveHours [] data1demo).store

/-- C2: for every draft whose selected date falls on the required anchor
weekday (weekday 6), a successful submission appends exactly one record
whose stored `weekStart` is the user-selected date shifted forward by
exactly one day, measured on the absolute day index. -/
theorem saveHours_stores_selected_plus_one
    (store : List HourTracker__c) (data : HourData) (sel : CDate)
    (hparse : parseDate data.sundayDate = some sel)
    (hanchor : dayNumber sel % 7 = 6)
    (hok : (saveHours store data).result = .ok) :
    ∃ rec, (saveHours store data).store = store ++ [rec] ∧
      dayNumber rec.Sunday_Date__c = dayNumber sel + 1 := by
  have h : saveHours store data = ⟨(saveHours store data).store, .ok⟩ := by
    rw [← hok]
  obtain ⟨parsed, rec, hp, hrec, hst⟩ := saveHours_ok_inv h
  rw [hp] at hparse
  injection hparse with he
  subst he
  obtain ⟨h1, h2, h3, h4, h5⟩ := parseDate_valid hp
  refine ⟨rec, hst, ?_⟩
  rw [hrec]
  exact dayNumber_addDays1 parsed h1 h2 h3 h4 h5

/-- Witness for C2 at the demonstration draft. -/
theorem saveHours_stores_selected_plus_one_witness :
    ∃ rec, (saveHours [] data1demo).store = [] ++ [rec] ∧
      dayNumber rec.Sunday_Date__c = dayNumber ⟨2024, 1, 6⟩ + 1 :=
  saveHours_stores_selected_plus_one [] data1demo ⟨2024, 1, 6⟩
    (by decide) (by decide) (by decide)

/-- C1: once a submission for a given `weekStart` has succeeded, any later
submission attempt for the same `weekStart` (in the store it produced, or
any later store that still contains every record of it) fails with the
duplicate-week error and leaves the store exactly unchanged. -/
theorem saveHours_duplicate_rejected
    (store store1 store2 : List HourTracker__c) (d1 d2 : HourData)
    (h1 : saveHours store d1 = ⟨store1, .ok⟩)
    (hsame : parseDate d2.sundayDate = parseDate d1.sundayDate)
    (hlater : ∀ r ∈ store1, r ∈ store2) :
    saveHours store2 d2 = ⟨store2, .err .duplicateWeek⟩ := by
  obtain ⟨parsed, rec, hp, hrec, hst⟩ := saveHours_ok_inv h1
  have hmem : rec ∈ store2 := by
    refine hlater rec ?_
    rw [hst]
    exact List.mem_append_right _ (List.mem_singleton.mpr rfl)
  have hp2 : parseDate d2.sundayDate = some parsed := by rw [hsame, hp]
  have hfil : rec ∈ store2.filter (fun r => r.Sunday_Date__c = addDays1 parsed) := by
    rw [List.mem_filter]
    exact ⟨hmem, by simp [hrec]⟩
  have hne : (store2.filter
      (fun r => r.Sunday_Date__c = addDays1 parsed)).isEmpty = false := by
    cases hq : store2.filter (fun r => r.Sunday_Date__c = addDays1 parsed) with
    | nil => rw [hq] at hfil; cases hfil
    | cons a l => rfl
  unfold saveHours
  rw [hp2]
  dsimp only
  rw [hne]
  rfl

/-- Witness for C1: resubmitting the same selected date right after the
demonstration submission is rejected with the duplicate error. -/
theorem saveHours_duplicate_rejected_witness :
    saveHours store1demo data2demo = ⟨store1demo, .err .duplicateWeek⟩ :=
  saveHours_duplicate_rejected [] store1demo store1demo data1demo data2demo
    (by decide) (by decide) (fun r hr => hr)

/-- C3: the submit handler issues the persist call first; the refresh
message is published and the draft reset exactly on the success branch
(and in the trace the publish follows the persist call), while on every
rejection (server-detected or transport) no message is published and the
draft state is entirely unchanged. -/
theorem handleSubmit_effects (st : ClientState) (resp : Except Str Unit) :
    (resp = .ok () →
      handleSubmit st resp =
        ({ resetForm st with showTable := false },
         [.persistCall (buildHourData st),
          .toast "Success".data "Hours saved successfully!".data "success".data,
          .publishMsg [("refresh".data, .bool true)]])) ∧
    (∀ m, resp = .error m →
      (handleSubmit st resp).1 = st ∧
      ∀ payload, Effect.publishMsg payload ∉ (handleSubmit st resp).2) := by
  constructor
  · rintro rfl
    rfl
  · rintro m rfl
    refine ⟨rfl, ?_⟩
    intro payload hmem
    simp [handleSubmit] at hmem

/-- A demonstration client state with a valid Saturday selected. -/
def st0demo : ClientState :=
  { sundayDate := "2024-01-06".data
    showTable := true
    sundayHours := "8".data
    mondayHours := "8".data
    tuesdayHours := "8".data
    wednesdayHours := "8".data
    thursdayHours := "8".data
    fridayHours := "8".data
    saturdayHours := "4".data }

/-- Witness for C3 at a concrete draft, one application per branch. -/
theorem handleSubmit_effects_witness :
    (handleSubmit st0demo (.ok ()) =
      ({ resetForm st0demo with showTable := false },
       [.persistCall (buildHourData st0demo),
        .toast "Success".data "Hours saved successfully!".data "success".data,
        .publishMsg [("refresh".data, .bool true)]])) ∧
    ((handleSubmit st0demo (.error "boom".data)).1 = st0demo ∧
      ∀ payload, Effect.publishMsg payload ∉
        (handleSubmit st0demo (.error "boom".data)).2) :=
  ⟨(handleSubmit_effects st0demo (.ok ())).1 rfl,
   (handleSubmit_effects st0demo (.error "boom".data)).2 "boom".data rfl⟩

/-- A coercion failure anywhere in the seven fields aborts `coerceHours`
with the invalid-decimal error of the first failing field; the error
carries only the offending raw string. -/
theorem coerceHours_err_shape (d : HourData)
    (hbad : parseDecimal d.sundayHours = none ∨ parseDecimal d.mondayHours = none ∨
      parseDecimal d.tuesdayHours = none ∨ parseDecimal d.wednesdayHours = none ∨
      parseDecimal d.thursdayHours = none ∨ parseDecimal d.fridayHours = none ∨
      parseDecimal d.saturdayHours = none) :
    ∃ raw, parseDecimal raw = none ∧
      raw ∈ [d.sundayHours, d.mondayHours, d.tuesdayHours, d.wednesdayHours,
             d.thursdayHours, d.fridayHours, d.saturdayHours] ∧
      coerceHours d = .error (.invalidDecimal raw) := by
  rcases h1 : parseDecimal d.sundayHours with _ | v1
  · exact ⟨d.sundayHours, h1, by simp, by simp [coerceHours, h1]⟩
  rcases h2 : parseDecimal d.mondayHours with _ | v2
  · exact ⟨d.mondayHours, h2, by simp, by simp [coerceHours, h1, h2]⟩
  rcases h3 : parseDecimal d.tuesdayHours with _ | v3
  · exact ⟨d.tuesdayHours, h3, by simp, by simp [coerceHours, h1, h2, h3]⟩
  rcases h4 : parseDecimal d.wednesdayHours with _ | v4
  · exact ⟨d.wednesdayHours, h4, by simp, by simp [coerceHours, h1, h2, h3, h4]⟩
  rcases h5 : parseDecimal d.thursdayHours with _ | v5
  · exact ⟨d.thursdayHours, h5, by simp, by simp [coerceHours, h1, h2, h3, h4, h5]⟩
  rcases h6 : parseDecimal d.fridayHours with _ | v6
  · exact ⟨d.fridayHours, h6, by simp, by simp [coerceHours, h1, h2, h3, h4, h5, h6]⟩
  rcases h7 : parseDecimal d.saturdayHours with _ | v7
  · exact ⟨d.saturdayHours, h7, by simp,
      by simp [coerceHours, h1, h2, h3, h4, h5, h6, h7]⟩
  simp [h1, h2, h3, h4, h5, h6, h7] at hbad

/-- C4 (amended): on an otherwise valid submission, a failed decimal
coercion of any of the seven hour fields fails the whole operation with
the invalid-decimal error carrying the offending raw value (the error does
not name the day), and no record is written. -/
theorem saveHours_invalid_hours
    (store : List HourTracker__c) (data : HourData) (sel : CDate)
    (hparse : parseDate data.sundayDate = some sel)
    (hnodup : (store.filter
      (fun r => r.Sunday_Date__c = addDays1 sel)).isEmpty = true)
    (hbad : parseDecimal data.sundayHours = none ∨
      parseDecimal data.mondayHours = none ∨
      parseDecimal data.tuesdayHours = none ∨
      parseDecimal data.wednesdayHours = none ∨
      parseDecimal data.thursdayHours = none ∨
      parseDecimal data.fridayHours = none ∨
      parseDecimal data.saturdayHours = none) :
    ∃ raw, parseDecimal raw = none ∧
      raw ∈ [data.sundayHours, data.mondayHours, data.tuesdayHours,
             data.wednesdayHours, data.thursdayHours, data.fridayHours,
             data.saturdayHours] ∧
      saveHours store data = ⟨store, .err (.invalidDecimal raw)⟩ := by
  obtain ⟨raw, hrawnone, hrawmem, hco⟩ := coerceHours_err_shape data hbad
  refine ⟨raw, hrawnone, hrawmem, ?_⟩
  unfold saveHours
  rw [hparse]
  dsimp only
  rw [hnodup, hco]
  rfl

/-- A draft whose Sunday field cannot be coerced. -/
def dataSunBad : HourData :=
  { sundayDate := "2024-01-06".data
    sundayHours := "abc".data
    mondayHours := "0".data
    tuesdayHours := "0".data
    wednesdayHours := "0".data
    thursdayHours := "0".data
    fridayHours := "0".data
    saturdayHours := "0".data }

/-- A draft whose Monday field cannot be coerced. -/
def dataMonBad : HourData :=
  { dataSunBad with sundayHours := "0".data, mondayHours := "abc".data }

/-- A draft with a negative Sunday value. -/
def dataNeg : HourData := { dataSunBad with sundayHours := "-5".data }

/-- C4 counterexample: the failure outcome for a bad Sunday field and for
a bad Monday field is one and the same value, so the error cannot name the
failing day; and a negative value (which is not a non-negative decimal) is
accepted and written rather than rejected. -/
theorem saveHours_invalid_hours_counterexample :
    (saveHours [] dataSunBad = ⟨[], .err (.invalidDecimal "abc".data)⟩ ∧
     saveHours [] dataMonBad = ⟨[], .err (.invalidDecimal "abc".data)⟩ ∧
     saveHours [] dataSunBad = saveHours [] dataMonBad) ∧
    ((saveHours [] dataNeg).result = .ok ∧
     (saveHours [] dataNeg).store =
       [{ Id := 0
          Sunday_Date__c := ⟨2024, 1, 7⟩
          Sunday_Hours__c := ⟨-5, 0⟩
          Monday_Hours__c := ⟨0, 0⟩
          Tuesday_Hours__c := ⟨0, 0⟩
          Wednesday_Hours__c := ⟨0, 0⟩
          Thursday_Hours__c := ⟨0, 0⟩
          Friday_Hours__c := ⟨0, 0⟩
          Saturday_Hours__c := ⟨0, 0⟩ }]) := by
  decide

/-- Witness for the amended C4 at the bad-Sunday draft. -/
theorem saveHours_invalid_hours_witness :
    ∃ raw, parseDecimal raw = none ∧
      raw ∈ [dataSunBad.sundayHours, dataSunBad.mondayHours,
             dataSunBad.tuesdayHours, dataSunBad.wednesdayHours,
             dataSunBad.thursdayHours, dataSunBad.fridayHours,
             dataSunBad.saturdayHours] ∧
      saveHours [] dataSunBad = ⟨[], .err (.invalidDecimal raw)⟩ :=
  saveHours_invalid_hours [] dataSunBad ⟨2024, 1, 6⟩ (by decide) (by decide)
    (Or.inl (by decide))

/-- A client state in which no date was ever picked. -/
def emptyDateState : ClientState :=
  { sundayDate := []
    showTable := false
    sundayHours := "0".data
    mondayHours := "0".data
    tuesdayHours := "0".data
    wednesdayHours := "0".data
    thursdayHours := "0".data
    fridayHours := "0".data
    saturdayHours := "0".data }

/-- C7 (amended): a draft with an unset (empty) `weekStart` is still sent
to the server — the persist call is the handler's first effect — and the
save then fails at date parsing with the generic invalid-date error before
any insert, so no record is written; no distinct missing-date error
exists. -/
theorem handleSubmit_missing_date
    (st : ClientState) (resp : Except Str Unit) (store : List HourTracker__c)
    (hempty : st.sundayDate = []) :
    (handleSubmit st resp).2.head? = some (.persistCall (buildHourData st)) ∧
    saveHours store (buildHourData st) = ⟨store, .err (.invalidDate [])⟩ := by
  constructor
  · cases resp <;> rfl
  · have hb : (buildHourData st).sundayDate = [] := hempty
    unfold saveHours
    rw [hb]
    rfl

/-- C7 counterexample: at a concrete empty-date state the persist call is
attempted (it is in the submit handler's effect trace), and the resulting
server failure is the generic invalid-date rejection, not a distinct
missing-date error raised before the call. -/
theorem handleSubmit_missing_date_counterexample :
    Effect.persistCall (buildHourData emptyDateState) ∈
      (handleSubmit emptyDateState (.error "Invalid date".data)).2 ∧
    (saveHours [] (buildHourData emptyDateState)).result ≠ .ok ∧
    saveHours [] (buildHourData emptyDateState) =
      ⟨[], .err (.invalidDate [])⟩ := by
  decide

/-- Witness for the amended C7 at the concrete empty-date state. -/
theorem handleSubmit_missing_date_witness :
    (handleSubmit emptyDateState (.error "boom".data)).2.head? =
      some (.persistCall (buildHourData emptyDateState)) ∧
    saveHours [] (buildHourData emptyDateState) =
      ⟨[], .err (.invalidDate [])⟩ :=
  handleSubmit_missing_date emptyDateState (.error "boom".data) [] rfl

/-- C8: when the picked date's weekday is not the required anchor weekday
(6), the date-change handler hides the table, toasts a validation error
and clears the date field; its effect trace contains no persist call. -/
theorem handleDateChange_wrong_weekday (st : ClientState) (value : Str)
    (h : jsGetDay value ≠ some 6) :
    handleDateChange st value =
      ({ st with showTable := false, sundayDate := [] },
       [.toast "Invalid Date".data "Please select a Sunday date.".data
          "error".data]) ∧
    ∀ d, Effect.persistCall d ∉ (handleDateChange st value).2 := by
  have he : handleDateChange st value =
      ({ st with showTable := false, sundayDate := [] },
       [.toast "Invalid Date".data "Please select a Sunday date.".data
          "error".data]) := by
    simp [handleDateChange, h]
  refine ⟨he, fun d hmem => ?_⟩
  rw [he] at hmem
  simp at hmem

/-- Witness for C8 at the Monday 2024-01-08. -/
theorem handleDateChange_wrong_weekday_witness :
    handleDateChange st0demo "2024-01-08".data =
      ({ st0demo with showTable := false, sundayDate := [] },
       [.toast "Invalid Date".data "Please select a Sunday date.".data
          "error".data]) ∧
    ∀ d, Effect.persistCall d ∉
      (handleDateChange st0demo "2024-01-08".data).2 :=
  handleDateChange_wrong_weekday st0demo "2024-01-08".data (by decide)

/-- C10: an hours-input event whose day identifier is none of the seven
recognized day names changes nothing: every per-day field and the selected
date keep their values. -/
theorem handleInputChange_unknown_day (st : ClientState) (day value : Str)
    (h : day ∉ (["sunday".data, "monday".data, "tuesday".data,
      "wednesday".data, "thursday".data, "friday".data,
      "saturday".data] : List Str)) :
    handleInputChange st day value = st := by
  simp only [List.mem_cons, List.not_mem_nil, or_false, not_or] at h
  obtain ⟨h1, h2, h3, h4, h5, h6, h7⟩ := h
  simp [handleInputChange, h1, h2, h3, h4, h5, h6, h7]

/-- Witness for C10 at an unrecognized day id. -/
theorem handleInputChange_unknown_day_witness :
    handleInputChange st0demo "hello".data "9".data = st0demo :=
  handleInputChange_unknown_day st0demo "hello".data "9".data (by decide)

/-- C6: for every stored set of records, whatever order they were inserted
in, `getAllHours` returns a reordering of exactly those records that is
sorted ascending by `Sunday_Date__c`. -/
theorem getAllHours_sorted_perm (store : List HourTracker__c) :
    (getAllHours store).Pairwise recLe ∧ (getAllHours store).Perm store :=
  ⟨List.sorted_insertionSort recLe store, List.perm_insertionSort recLe store⟩

/-- C9: when the wire settles with an error, the display keeps its cached
rows at the last known-good value, only logs the failure, and issues no
automatic refetch. -/
theorem wiredHours_error_keeps_rows (st : DisplayState) (m : Str) :
    (wiredHours st (.error m)).1.hoursData = st.hoursData ∧
    (wiredHours st (.error m)).2 = [.consoleError m] ∧
    DEffect.refetch ∉ (wiredHours st (.error m)).2 := by
  refine ⟨rfl, rfl, ?_⟩
  intro hmem
  simp [wiredHours] at hmem

/-- C5 (amended): the display's message handler invalidates and refetches
exactly when the `refresh` field of the message is truthy — strict
equality with `true` is sufficient but not necessary — and leaves its
state untouched on every falsy-`refresh` message (including messages
without a `refresh` field). -/
theorem handleMessage_truthy (st : DisplayState) (store : List HourTracker__c)
    (message : JSObj) :
    (truthy (getField message "refresh".data) = true →
      handleMessage st store message =
        ({ hoursData := (getAllHours store).map toRow
           wiredHoursResult := some (.data (getAllHours store)) },
         [.refetch])) ∧
    (truthy (getField message "refresh".data) = false →
      handleMessage st store message = (st, [])) := by
  constructor
  · intro ht
    simp [handleMessage, ht, refreshData, wiredHours]
  · intro hf
    simp [handleMessage, hf]

/-- An initial display state with no rows loaded. -/
def disp0demo : DisplayState := { hoursData := [], wiredHoursResult := none }

/-- A message whose `refresh` field is the number 1, not the boolean
`true`. -/
def msgNum1 : JSObj := [("refresh".data, JSVal.num 1)]

/-- C5 counterexample: a message whose `refresh` field is 1 — not strictly
equal to `true` — nevertheless triggers the invalidate-and-refetch, so the
consumer does not filter on strict equality and such message shapes are
not ignored. -/
theorem handleMessage_truthy_counterexample :
    getField msgNum1 "refresh".data ≠ JSVal.bool true ∧
    (handleMessage disp0demo store1demo msgNum1).1.hoursData =
      (getAllHours store1demo).map toRow ∧
    (handleMessage disp0demo store1demo msgNum1).1 ≠ disp0demo ∧
    DEffect.refetch ∈ (handleMessage disp0demo store1demo msgNum1).2 := by
  decide

/-- Witness for the amended C5, one application per branch. -/
theorem handleMessage_truthy_witness :
    (handleMessage disp0demo store1demo [("refresh".data, JSVal.bool true)] =
      ({ hoursData := (getAllHours store1demo).map toRow
         wiredHoursResult := some (.data (getAllHours store1demo)) },
       [.refetch])) ∧
    (handleMessage disp0demo store1demo [("refresh".data, JSVal.bool false)] =
      (disp0demo, [])) :=
  ⟨(handleMessage_truthy disp0demo store1demo
      [("refresh".data, JSVal.bool true)]).1 (by decide),
   (handleMessage_truthy disp0demo store1demo
      [("refresh".data, JSVal.bool false)]).2 (by decide)⟩

example : parseDate "2024-01-06".data = some ⟨2024, 1, 6⟩ := by decide

example : jsGetDay "2024-01-06".data = some 6 := by decide

example : jsGetDay "2024-01-07".data = some 0 := by decide

example : jsGetDay "2024-01-08".data = some 1 := by decide

example : parseDecimal "abc".data = none := by decide

example : parseDecimal "-5".data = some ⟨-5, 0⟩ := by decide

example : parseDecimal "8.5".data = some ⟨85, 1⟩ := by decide
